import Mathlib

/-!
Verification model of the `titan-core` subsystem/task dispatch runtime
(`titan-core/src/subsystem.rs`, `tasks.rs`, `channels.rs`, `arclock.rs`).

Conventions of the shallow embedding:
* `f64` duration values are modelled as exact rationals `ℚ`; the `min`
  accumulator field is modelled in `WithTop ℚ` (`ℚ` together with `⊤ = +∞`)
  because the IEEE double domain contains `+∞` and the distinction between
  `f64::MAX` (a finite value) and `+∞` is material to the spec.
* `u64` counters are modelled as `ℕ` (their increments here stay far below
  `2^64`, so wrap-around is unreachable).
* `IndexMap` (insertion-ordered map) is modelled as an association list;
  `entry(k).or_insert(v)` and `entry(k).and_modify(f)` become the list
  operations `entryOrInsert` and `entryAndModify`.
* `tokio::sync::oneshot` channels are modelled by an explicit channel-state
  type; futures' `poll` becomes a pure function of that state.
* The `ArcLock` (a `tokio::sync::RwLock`) and the spawned task messages are
  modelled as a labelled transition system; guard acquisition in
  `ImmutableTaskMessage::execute` / `MutableTaskMessage::execute` becomes a
  step whose enabling condition is the `RwLock` admission rule.
-/

namespace TitanV

/-- Largest finite `f64` value: `f64::MAX = (2 - 2⁻⁵²)·2¹⁰²³ = 2¹⁰²⁴ - 2⁹⁷¹`,
as an exact rational. This is the value `StartBenchmark::execute` writes into
`BenchmarkLog.min` (`tasks.rs` line 201). -/
def f64Max : ℚ := 2 ^ 1024 - 2 ^ 971

/-- Lookup in an association list (the observable content of an `IndexMap`
or `HashMap`): first binding of the key wins. -/
def lookupKey {κ α : Type} [DecidableEq κ] : List (κ × α) → κ → Option α
  | [], _ => none
  | (k', v) :: rest, k => if k' = k then some v else lookupKey rest k

/-- `map.entry(k).or_insert(v)`: insert `v` at the end when `k` is absent,
leave the map untouched when `k` is present (`IndexMap` appends new keys in
insertion order). -/
def entryOrInsert {κ α : Type} [DecidableEq κ] : List (κ × α) → κ → α → List (κ × α)
  | [], k, v => [(k, v)]
  | (k', v') :: rest, k, v =>
      if k' = k then (k', v') :: rest else (k', v') :: entryOrInsert rest k v

/-- `map.entry(k).and_modify(f)`: apply `f` in place when `k` is present,
do nothing at all when it is absent (a vacant `Entry` dropped without
`or_insert` inserts nothing). -/
def entryAndModify {κ α : Type} [DecidableEq κ] : List (κ × α) → κ → (α → α) → List (κ × α)
  | [], _, _ => []
  | (k', v') :: rest, k, f =>
      if k' = k then (k', f v') :: rest else (k', v') :: entryAndModify rest k f

/-- `TaskLog` record from `tasks.rs` (per-invocation task log entry). -/
structure TaskLog where
  id : String
  name : String
  complete : Bool
  start : ℚ
  duration : ℚ
  display : String

/-- `BenchmarkLog` record from `tasks.rs` (per-task-name running statistics).
The `min` field lives in `WithTop ℚ` so that the finite initial value
`f64::MAX` is distinguishable from `+∞`. -/
structure BenchmarkLog where
  name : String
  start : ℚ
  duration : ℚ
  max : ℚ
  min : WithTop ℚ
  average : ℚ
  runs : ℕ
  run_time : ℚ
  display : String

/-- State of `TasksSubsystem` from `tasks.rs`: the two insertion-ordered maps
`tasks` (keyed by generated id) and `benchmarks` (keyed by task name). -/
structure TasksSubsystem where
  tasks : List (String × TaskLog)
  benchmarks : List (String × BenchmarkLog)

/-- `TasksSubsystem::start_task`: `tasks.entry(task.id).or_insert(task)`,
returning `Ok(())`. The state is threaded explicitly. -/
def start_task (s : TasksSubsystem) (task : TaskLog) : Except String TasksSubsystem :=
  .ok { s with tasks := entryOrInsert s.tasks task.id task }

/-- Body of the `and_modify` closure in `TasksSubsystem::end_task`
(`tasks.rs` lines 63-67): set `complete`, store the duration, then compute
the display string from a clone taken after those updates (so the closure
sees the new `complete`/`duration` but the old `display`). -/
def endTaskUpdate (time : ℚ) (display_fn : TaskLog → String) (t0 : TaskLog) : TaskLog :=
  let t1 := { t0 with complete := true }
  let t2 := { t1 with duration := time }
  { t2 with display := display_fn t2 }

/-- `TasksSubsystem::end_task`: `tasks.entry(id).and_modify(...)`, always
returning `Ok(())`. -/
def end_task (s : TasksSubsystem) (id : String) (time : ℚ)
    (display_fn : TaskLog → String) : Except String TasksSubsystem :=
  .ok { s with tasks := entryAndModify s.tasks id (endTaskUpdate time display_fn) }

/-- The fresh `BenchmarkLog` literal built by `StartBenchmark::execute`
(`tasks.rs` lines 192-202): `start = duration = average = run_time = 0`,
`runs = 0`, `display = name`, `max = 0.0`, `min = f64::MAX`. -/
def startBenchmarkLog (name : String) : BenchmarkLog :=
  { name := name
    start := 0
    duration := 0
    average := 0
    runs := 0
    run_time := 0
    display := name
    max := 0
    min := (f64Max : ℚ) }

/-- `TasksSubsystem::start_benchmark`:
`benchmarks.entry(bench.name).or_insert(bench)`, returning `Ok(())`. -/
def start_benchmark (s : TasksSubsystem) (bench : BenchmarkLog) : Except String TasksSubsystem :=
  .ok { s with benchmarks := entryOrInsert s.benchmarks bench.name bench }

/-- `StartBenchmark::execute`: build the fresh accumulator and call
`start_benchmark`. -/
def startBenchmarkExecute (name : String) (s : TasksSubsystem) : Except String TasksSubsystem :=
  start_benchmark s (startBenchmarkLog name)

/-- Body of the `and_modify` closure in `TasksSubsystem::end_benchmark`
(`tasks.rs` lines 102-111), one `let` per mutation statement, in source
order: `duration = time; start = time; run_time += duration; runs += 1;
average = run_time / runs as f64; max = f64::max(duration, max);
min = f64::min(duration, min); display = display_fn(clone)` — the clone is
taken after every numeric update, so `display_fn` sees the new numbers and
the old display string. -/
def endBenchmarkUpdate (time : ℚ) (display_fn : BenchmarkLog → String)
    (b0 : BenchmarkLog) : BenchmarkLog :=
  let b1 := { b0 with duration := time }
  let b2 := { b1 with start := time }
  let b3 := { b2 with run_time := b2.run_time + b2.duration }
  let b4 := { b3 with runs := b3.runs + 1 }
  let b5 := { b4 with average := b4.run_time / ((b4.runs : ℕ) : ℚ) }
  let b6 := { b5 with max := Max.max b5.duration b5.max }
  let b7 := { b6 with min := Min.min ((b6.duration : ℚ) : WithTop ℚ) b6.min }
  { b7 with display := display_fn b7 }

/-- `TasksSubsystem::end_benchmark`: `benchmarks.entry(name).and_modify(...)`,
always returning `Ok(())`. -/
def end_benchmark (s : TasksSubsystem) (name : String) (time : ℚ)
    (display_fn : BenchmarkLog → String) : Except String TasksSubsystem :=
  .ok { s with benchmarks := entryAndModify s.benchmarks name (endBenchmarkUpdate time display_fn) }

/-- Result of polling a future (`std::task::Poll`). -/
inductive Poll (α : Type) where
  | ready (a : α)
  | pending
deriving DecidableEq

/-- State of a `tokio::sync::oneshot` channel carrying an `α`.  The sender is
consumed by `send`, so a value is sent at most once: `waiting` (sender alive,
nothing sent yet), `sent a` (the unique value sent), `closed` (sender dropped
without sending). -/
inductive OneshotState (α : Type) where
  | waiting
  | sent (a : α)
  | closed
deriving DecidableEq

/-- Polling the oneshot receiver: a sent value is received, a dropped sender
yields `RecvError` ("channel closed"), otherwise pending. -/
def oneshotRecvPoll {α : Type} : OneshotState α → Poll (Except String α)
  | .sent a => .ready (.ok a)
  | .closed => .ready (.error "channel closed")
  | .waiting => .pending

/-- `TaskHandle::poll` (`subsystem.rs` lines 236-246): forward the received
value, wrap a `RecvError` into the anyhow cancellation error, forward
pending. -/
def taskHandlePoll {α : Type} (s : OneshotState α) : Poll (Except String α) :=
  match oneshotRecvPoll s with
  | .ready (.ok task_result) => .ready (.ok task_result)
  | .ready (.error err) => .ready (.error ("Error retrieving task result: " ++ err))
  | .pending => .pending

/-- Outcome a `TaskHandle` contributes to a draining `FuturesUnordered`
`poll_next`: `some` when the handle is complete (and is then removed from
the set), `none` while it is still pending. -/
def handleOutcome {α : Type} (s : OneshotState α) : Option (Except String α) :=
  match taskHandlePoll s with
  | .ready r => some r
  | .pending => none

/-- `BatchHandle::poll` (`subsystem.rs` lines 267-280) as a function of the
states of the not-yet-completed handles.  The `while let` loop drains every
currently-complete handle out of the `FuturesUnordered` into a Vec that is
local to this poll; if the set is then empty the poll resolves with that
Vec, otherwise it returns `Pending` and the local Vec (with the drained
results) is dropped.  The function returns the poll outcome together with
the handles remaining in the set after the drain. -/
def batchPoll {α : Type} (hs : List (OneshotState α)) :
    Poll (List (Except String α)) × List (OneshotState α) :=
  let results := hs.filterMap handleOutcome
  let rest := hs.filter (fun s => (handleOutcome s).isNone)
  if rest.isEmpty then (.ready results, rest) else (.pending, rest)

/-- Outcome of awaiting one instrumentation `TaskHandle` inside
`subsystem_run_task`: `ok` when the Tasks subsystem answered, `err` when the
handle resolved to the cancellation error (e.g. the Tasks mailbox is closed,
so the `StartTask`/`StartBenchmark`/`EndBenchmark` message was dropped with
its reply sender). -/
inductive AwaitResult where
  | ok
  | err
deriving DecidableEq

/-- Whether an awaited instrumentation send failed. -/
def AwaitResult.isErr : AwaitResult → Bool
  | .ok => false
  | .err => true

/-- Environment of one `subsystem_run_task` call: what each awaited
instrumentation send would resolve to.  (`EndTask` is sent without awaiting
its handle — `subsystem.rs` lines 421-425 — so it has no await outcome.) -/
structure InstrOutcome where
  startTask : AwaitResult
  startBench : AwaitResult
  endBench : AwaitResult
deriving DecidableEq

/-- Observable outcome of `subsystem_run_task` for the dispatched task:
whether the task body (`task_message.execute`) ran, what the caller's reply
channel received (`none` = the reply sender was dropped unanswered, so the
caller's `TaskHandle` resolves to the cancellation error), and the
`Result<()>` that `launch_task` logs. -/
structure RunOutcome (α : Type) where
  executed : Bool
  delivered : Option α
  result : Except String Unit

/-- `subsystem_run_task` (`subsystem.rs` lines 383-446), control flow only.
With `tasks = Some(_)` (instrumented mode): when `log && !benchmark` it
awaits the `StartTask` send and propagates a failure with `?` — returning
before `task_message.execute`, so the task body never runs and the reply
sender is dropped unanswered; when `benchmark` it does the same with
`StartBenchmark`.  `task_message.execute` runs the body, sends the output
through the reply channel (a failed reply send is only logged) and returns
`Ok`.  Afterwards `EndTask` is sent without awaiting, while `EndBenchmark`
is awaited and its failure propagated with `?` — after the reply was already
delivered. -/
def subsystemRunTask {α : Type} (log bench : Bool) (tasks : Option InstrOutcome)
    (out : α) : RunOutcome α :=
  let startFailed : Bool :=
    match tasks with
    | none => false
    | some i => (log && !bench && i.startTask.isErr) || (bench && i.startBench.isErr)
  if startFailed then
    { executed := false, delivered := none, result := .error "instrumentation send failed" }
  else
    let endFailed : Bool :=
      match tasks with
      | none => false
      | some i => bench && i.endBench.isErr
    { executed := true
      delivered := some out
      result := if endFailed then .error "instrumentation send failed" else .ok () }

/-- A `SubsystemRef<S>` as far as identity is observable: the mailbox sender
it wraps.  `Clone` yields an equal value (`subsystem.rs` lines 458-467). -/
structure SubsystemRefM where
  senderId : ℕ
deriving DecidableEq

/-- Outcome of `Channels::get`: the cloned reference, or the `panic!` abort
raised when no subsystem of the requested type was registered
(`channels.rs` line 34). -/
inductive GetResult (α : Type) where
  | ok (r : α)
  | panicked (msg : String)
deriving DecidableEq

/-- `Channels::add` (`channels.rs` lines 21-25): `HashMap::insert` keyed by
`TypeId`, overwriting any previous entry for the same type.  Modelled by
prepending, with `lookupKey` taking the most recent binding.  (The
`lock_sync` acquisition always succeeds in this sequential model.) -/
def channelsAdd (c : List (ℕ × SubsystemRefM)) (tid : ℕ) (r : SubsystemRefM) :
    List (ℕ × SubsystemRefM) :=
  (tid, r) :: c

/-- `Channels::get` (`channels.rs` lines 28-45): look the `TypeId` up; when
present, the downcast to `SubsystemRef<S>` succeeds (entries are stored
under their own `TypeId`) and a clone of the stored reference is returned;
when absent, `unwrap_or_else` panics. -/
def channelsGet (c : List (ℕ × SubsystemRefM)) (tid : ℕ) : GetResult SubsystemRefM :=
  match lookupKey c tid with
  | some r => .ok r
  | none => .panicked "Get: No subsystem of this type was registered!"

/-- Phase of a spawned task message with respect to its subsystem's state
guard.  `running` means the guard obtained at the top of
`ImmutableTaskMessage::execute` / `MutableTaskMessage::execute` is held and
the task body executes against the state; the guard is scoped to the whole
`execute` call, so it is released exactly when the phase moves to
`finished`. -/
inductive Phase where
  | queued
  | running
  | finished
deriving DecidableEq

/-- Whether a phase is the body-executing (guard-holding) phase. -/
def Phase.isRunning : Phase → Bool
  | .running => true
  | _ => false

/-- One spawned task message on a subsystem: its access mode (`is_mut`,
i.e. whether it was built by `MutableTaskMessage::from` or
`ImmutableTaskMessage::from`) and its current phase. -/
structure Proc where
  is_mut : Bool
  phase : Phase
deriving DecidableEq

/-- State of the subsystem's `ArcLock` (a `tokio::sync::RwLock`): the number
of shared read guards outstanding and whether the exclusive write guard is
outstanding. -/
structure LockState where
  readers : ℕ
  writer : Bool
deriving DecidableEq

/-- Global state of one subsystem's dispatched task messages together with
its `ArcLock`. -/
structure SysState where
  lock : LockState
  procs : List Proc
deriving DecidableEq

/-- Interleaving steps of the spawned task messages, from
`ImmutableTaskMessage::execute` (`subsystem.rs` lines 124-156) and
`MutableTaskMessage::execute` (lines 191-224) over the `RwLock` admission
rules of `ArcLock::read` / `ArcLock::lock`:
a read guard is granted only while no write guard is outstanding, the write
guard only while no guard at all is outstanding.  (Real `tokio` fairness
queues admit fewer interleavings than this relation; every real behaviour
is a behaviour of this relation, so safety proved here covers the code.) -/
inductive Step : SysState → SysState → Prop where
  | acquireRead (s : SysState) (i : ℕ) (p : Proc)
      (hp : s.procs[i]? = some p) (hmut : p.is_mut = false)
      (hq : p.phase = .queued) (hw : s.lock.writer = false) :
      Step s ⟨⟨s.lock.readers + 1, false⟩, s.procs.set i { p with phase := .running }⟩
  | acquireWrite (s : SysState) (i : ℕ) (p : Proc)
      (hp : s.procs[i]? = some p) (hmut : p.is_mut = true)
      (hq : p.phase = .queued) (hw : s.lock.writer = false)
      (hr : s.lock.readers = 0) :
      Step s ⟨⟨0, true⟩, s.procs.set i { p with phase := .running }⟩
  | releaseRead (s : SysState) (i : ℕ) (p : Proc)
      (hp : s.procs[i]? = some p) (hmut : p.is_mut = false)
      (hrun : p.phase = .running) :
      Step s ⟨⟨s.lock.readers - 1, s.lock.writer⟩, s.procs.set i { p with phase := .finished }⟩
  | releaseWrite (s : SysState) (i : ℕ) (p : Proc)
      (hp : s.procs[i]? = some p) (hmut : p.is_mut = true)
      (hrun : p.phase = .running) :
      Step s ⟨⟨s.lock.readers, false⟩, s.procs.set i { p with phase := .finished }⟩

/-- Initial state: the lock is free (`ArcLock::new`) and the given task
messages are all still queued. -/
def initState (ps : List Proc) : SysState := ⟨⟨0, false⟩, ps⟩

/-- States reachable by interleaving the task messages' steps from the
initial state. -/
inductive Reachable (ps : List Proc) : SysState → Prop where
  | init (hq : ∀ p ∈ ps, p.phase = Phase.queued) : Reachable ps (initState ps)
  | step {s t : SysState} (hs : Reachable ps s) (hst : Step s t) : Reachable ps t

/-- Number of `is_mut` task messages currently executing their body. -/
def mutRunning (ps : List Proc) : ℕ :=
  ps.countP (fun p => p.is_mut && p.phase.isRunning)

/-- Number of non-`is_mut` task messages currently executing their body. -/
def readRunning (ps : List Proc) : ℕ :=
  ps.countP (fun p => !p.is_mut && p.phase.isRunning)

/-- Inductive invariant tying the task phases to the lock state: the write
guard is held by exactly the executing mutable task when there is one, each
executing immutable task holds one read guard, and the write guard excludes
all read guards. -/
def LockInv (s : SysState) : Prop :=
  mutRunning s.procs = (if s.lock.writer then 1 else 0) ∧
  readRunning s.procs = s.lock.readers ∧
  (s.lock.writer = true → s.lock.readers = 0)

theorem countP_set_eq {α : Type} (f : α → Bool) (ps : List α) (i : ℕ) (p q : α)
    (hp : ps[i]? = some p) :
    (ps.set i q).countP f + (if f p then 1 else 0) =
      ps.countP f + (if f q then 1 else 0) := by
  obtain ⟨h, hpe⟩ := List.getElem?_eq_some_iff.mp hp
  have h1 := List.countP_set f ps i q h
  have h2 := List.boole_getElem_le_countP f ps i h
  rw [hpe] at h1 h2
  omega

theorem isRunning_queued : Phase.isRunning Phase.queued = false := rfl

theorem isRunning_running : Phase.isRunning Phase.running = true := rfl

theorem isRunning_finished : Phase.isRunning Phase.finished = false := rfl

theorem countP_set_ff {α : Type} (f : α → Bool) (ps : List α) (i : ℕ) (p q : α)
    (hp : ps[i]? = some p) (h1 : f p = false) (h2 : f q = false) :
    (ps.set i q).countP f = ps.countP f := by
  have h := countP_set_eq f ps i p q hp
  rw [h1, h2] at h
  simpa using h

theorem countP_set_ft {α : Type} (f : α → Bool) (ps : List α) (i : ℕ) (p q : α)
    (hp : ps[i]? = some p) (h1 : f p = false) (h2 : f q = true) :
    (ps.set i q).countP f = ps.countP f + 1 := by
  have h := countP_set_eq f ps i p q hp
  rw [h1, h2] at h
  simpa using h

theorem countP_set_tf {α : Type} (f : α → Bool) (ps : List α) (i : ℕ) (p q : α)
    (hp : ps[i]? = some p) (h1 : f p = true) (h2 : f q = false) :
    (ps.set i q).countP f + 1 = ps.countP f := by
  have h := countP_set_eq f ps i p q hp
  rw [h1, h2] at h
  simpa using h

theorem lockInv_step {s t : SysState} (hi : LockInv s) (hst : Step s t) : LockInv t := by
  obtain ⟨h1, h2, h3⟩ := hi
  simp only [mutRunning, readRunning] at h1 h2
  have hite0 : (if false = true then (1 : ℕ) else 0) = 0 := rfl
  have hite1 : (if true = true then (1 : ℕ) else 0) = 1 := rfl
  cases hst with
  | acquireRead i p hp hmut hq hw =>
    have hcm := countP_set_ff (fun r : Proc => r.is_mut && r.phase.isRunning)
      s.procs i p { p with phase := Phase.running } hp
      (by simp [hmut, hq, isRunning_queued]) (by simp [hmut])
    have hcr := countP_set_ft (fun r : Proc => !r.is_mut && r.phase.isRunning)
      s.procs i p { p with phase := Phase.running } hp
      (by simp [hmut, hq, isRunning_queued]) (by simp [hmut, isRunning_running])
    rw [hw, hite0] at h1
    refine ⟨?_, ?_, ?_⟩
    · show List.countP (fun r : Proc => r.is_mut && r.phase.isRunning)
        (s.procs.set i { p with phase := Phase.running }) = 0
      omega
    · show List.countP (fun r : Proc => !r.is_mut && r.phase.isRunning)
        (s.procs.set i { p with phase := Phase.running }) = s.lock.readers + 1
      omega
    · intro hwt
      exact absurd hwt Bool.false_ne_true
  | acquireWrite i p hp hmut hq hw hr =>
    have hcm := countP_set_ft (fun r : Proc => r.is_mut && r.phase.isRunning)
      s.procs i p { p with phase := Phase.running } hp
      (by simp [hmut, hq, isRunning_queued]) (by simp [hmut, isRunning_running])
    have hcr := countP_set_ff (fun r : Proc => !r.is_mut && r.phase.isRunning)
      s.procs i p { p with phase := Phase.running } hp
      (by simp [hmut]) (by simp [hmut])
    rw [hw, hite0] at h1
    refine ⟨?_, ?_, ?_⟩
    · show List.countP (fun r : Proc => r.is_mut && r.phase.isRunning)
        (s.procs.set i { p with phase := Phase.running }) = 1
      omega
    · show List.countP (fun r : Proc => !r.is_mut && r.phase.isRunning)
        (s.procs.set i { p with phase := Phase.running }) = 0
      omega
    · exact fun _ => rfl
  | releaseRead i p hp hmut hrun =>
    have hcm := countP_set_ff (fun r : Proc => r.is_mut && r.phase.isRunning)
      s.procs i p { p with phase := Phase.finished } hp
      (by simp [hmut]) (by simp [hmut])
    have hcr := countP_set_tf (fun r : Proc => !r.is_mut && r.phase.isRunning)
      s.procs i p { p with phase := Phase.finished } hp
      (by simp [hmut, hrun, isRunning_running]) (by simp [hmut, isRunning_finished])
    refine ⟨?_, ?_, ?_⟩
    · show List.countP (fun r : Proc => r.is_mut && r.phase.isRunning)
        (s.procs.set i { p with phase := Phase.finished }) =
          if s.lock.writer = true then 1 else 0
      omega
    · show List.countP (fun r : Proc => !r.is_mut && r.phase.isRunning)
        (s.procs.set i { p with phase := Phase.finished }) = s.lock.readers - 1
      omega
    · intro hwt
      have h0 := h3 hwt
      show s.lock.readers - 1 = 0
      omega
  | releaseWrite i p hp hmut hrun =>
    have hcm := countP_set_tf (fun r : Proc => r.is_mut && r.phase.isRunning)
      s.procs i p { p with phase := Phase.finished } hp
      (by simp [hmut, hrun, isRunning_running]) (by simp [hmut, isRunning_finished])
    have hcr := countP_set_ff (fun r : Proc => !r.is_mut && r.phase.isRunning)
      s.procs i p { p with phase := Phase.finished } hp
      (by simp [hmut]) (by simp [hmut])
    cases hwc : s.lock.writer with
    | false =>
      rw [hwc, hite0] at h1
      exfalso
      omega
    | true =>
      rw [hwc, hite1] at h1
      refine ⟨?_, ?_, ?_⟩
      · show List.countP (fun r : Proc => r.is_mut && r.phase.isRunning)
          (s.procs.set i { p with phase := Phase.finished }) = 0
        omega
      · show List.countP (fun r : Proc => !r.is_mut && r.phase.isRunning)
          (s.procs.set i { p with phase := Phase.finished }) = s.lock.readers
        omega
      · intro hwt
        exact absurd hwt Bool.false_ne_true

theorem lockInv_reachable {ps : List Proc} {s : SysState} (h : Reachable ps s) : LockInv s := by
  induction h with
  | init hq =>
    have hm : List.countP (fun r : Proc => r.is_mut && r.phase.isRunning) ps = 0 :=
      List.countP_eq_zero.mpr (by intro a ha; simp [hq a ha, isRunning_queued])
    have hr : List.countP (fun r : Proc => !r.is_mut && r.phase.isRunning) ps = 0 :=
      List.countP_eq_zero.mpr (by intro a ha; simp [hq a ha, isRunning_queued])
    refine ⟨?_, ?_, ?_⟩
    · simpa [initState, mutRunning] using hm
    · simpa [initState, readRunning] using hr
    · simp [initState]
  | step hs hst ih => exact lockInv_step ih hst

theorem entryOrInsert_of_lookup_some {κ α : Type} [DecidableEq κ] (m : List (κ × α))
    (k : κ) (v w : α) (h : lookupKey m k = some v) : entryOrInsert m k w = m := by
  induction m with
  | nil => simp [lookupKey] at h
  | cons a rest ih =>
    obtain ⟨kh, vh⟩ := a
    by_cases hk : kh = k
    · simp [entryOrInsert, hk]
    · simp only [lookupKey, if_neg hk] at h
      simp only [entryOrInsert, if_neg hk, List.cons.injEq, true_and]
      exact ih h

theorem lookupKey_entryOrInsert_of_none {κ α : Type} [DecidableEq κ] (m : List (κ × α))
    (k : κ) (v : α) (h : lookupKey m k = none) :
    lookupKey (entryOrInsert m k v) k = some v := by
  induction m with
  | nil => simp [lookupKey, entryOrInsert]
  | cons a rest ih =>
    obtain ⟨kh, vh⟩ := a
    by_cases hk : kh = k
    · simp [lookupKey, if_pos hk] at h
    · simp only [lookupKey, if_neg hk] at h
      simp only [entryOrInsert, if_neg hk, lookupKey]
      exact ih h

theorem entryAndModify_of_lookup_none {κ α : Type} [DecidableEq κ] (m : List (κ × α))
    (k : κ) (f : α → α) (h : lookupKey m k = none) : entryAndModify m k f = m := by
  induction m with
  | nil => rfl
  | cons a rest ih =>
    obtain ⟨kh, vh⟩ := a
    by_cases hk : kh = k
    · simp [lookupKey, if_pos hk] at h
    · simp only [lookupKey, if_neg hk] at h
      simp only [entryAndModify, if_neg hk, List.cons.injEq, true_and]
      exact ih h

theorem lookupKey_entryAndModify_some {κ α : Type} [DecidableEq κ] (m : List (κ × α))
    (k : κ) (f : α → α) (v : α) (h : lookupKey m k = some v) :
    lookupKey (entryAndModify m k f) k = some (f v) := by
  induction m with
  | nil => simp [lookupKey] at h
  | cons a rest ih =>
    obtain ⟨kh, vh⟩ := a
    by_cases hk : kh = k
    · simp only [lookupKey, if_pos hk] at h
      simp only [entryAndModify, if_pos hk, lookupKey]
      rw [Option.some.inj h]
    · simp only [lookupKey, if_neg hk] at h
      simp only [entryAndModify, if_neg hk, lookupKey]
      exact ih h

/-- C5: for a benchmark name already present with accumulator `b`,
`end_benchmark` updates it by exactly `runs += 1`, `run_time += d`,
`average = run_time / runs`, `min = min(previous min, d)`,
`max = max(previous max, d)`; consequently one `end_benchmark` on a freshly
started accumulator gives `runs = 1, average = d, min = d, max = d`, and two
give `runs = 2, average = (d1+d2)/2, min = min(d1,d2), max = max(d1,d2)`
(durations are nonnegative finite `f64` values: `0 ≤ d ≤ f64::MAX`). -/
theorem end_benchmark_accumulator_spec (X : String) (fn fn1 fn2 : BenchmarkLog → String)
    (ts : TasksSubsystem) (b : BenchmarkLog) (d d1 d2 : ℚ)
    (hb : lookupKey ts.benchmarks X = some b)
    (h0 : 0 ≤ d) (hM : d ≤ f64Max) (h01 : 0 ≤ d1) (hM1 : d1 ≤ f64Max)
    (h02 : 0 ≤ d2) (hM2 : d2 ≤ f64Max) :
    (∃ ts2 : TasksSubsystem, end_benchmark ts X d fn = .ok ts2 ∧
        lookupKey ts2.benchmarks X = some (endBenchmarkUpdate d fn b)) ∧
    ((endBenchmarkUpdate d fn b).runs = b.runs + 1 ∧
      (endBenchmarkUpdate d fn b).run_time = b.run_time + d ∧
      (endBenchmarkUpdate d fn b).average =
        (endBenchmarkUpdate d fn b).run_time / (((endBenchmarkUpdate d fn b).runs : ℕ) : ℚ) ∧
      (endBenchmarkUpdate d fn b).min = Min.min b.min (d : WithTop ℚ) ∧
      (endBenchmarkUpdate d fn b).max = Max.max b.max d) ∧
    ((endBenchmarkUpdate d fn (startBenchmarkLog X)).runs = 1 ∧
      (endBenchmarkUpdate d fn (startBenchmarkLog X)).average = d ∧
      (endBenchmarkUpdate d fn (startBenchmarkLog X)).min = (d : WithTop ℚ) ∧
      (endBenchmarkUpdate d fn (startBenchmarkLog X)).max = d) ∧
    ((endBenchmarkUpdate d2 fn2 (endBenchmarkUpdate d1 fn1 (startBenchmarkLog X))).runs = 2 ∧
      (endBenchmarkUpdate d2 fn2 (endBenchmarkUpdate d1 fn1 (startBenchmarkLog X))).average =
        (d1 + d2) / 2 ∧
      (endBenchmarkUpdate d2 fn2 (endBenchmarkUpdate d1 fn1 (startBenchmarkLog X))).min =
        ((Min.min d1 d2 : ℚ) : WithTop ℚ) ∧
      (endBenchmarkUpdate d2 fn2 (endBenchmarkUpdate d1 fn1 (startBenchmarkLog X))).max =
        Max.max d1 d2) := by
  refine ⟨⟨_, rfl, lookupKey_entryAndModify_some _ _ _ _ hb⟩, ⟨rfl, rfl, rfl, ?_, ?_⟩,
    ⟨rfl, ?_, ?_, ?_⟩, ⟨rfl, ?_, ?_, ?_⟩⟩
  · show Min.min (d : WithTop ℚ) b.min = Min.min b.min (d : WithTop ℚ)
    exact min_comm _ _
  · show Max.max d b.max = Max.max b.max d
    exact max_comm _ _
  · show (0 + d) / (((0 + 1 : ℕ) : ℕ) : ℚ) = d
    norm_num
  · show Min.min (d : WithTop ℚ) ((f64Max : ℚ) : WithTop ℚ) = (d : WithTop ℚ)
    exact min_eq_left (WithTop.coe_le_coe.mpr hM)
  · show Max.max d 0 = d
    exact max_eq_left h0
  · show (0 + d1 + d2) / (((0 + 1 + 1 : ℕ) : ℕ) : ℚ) = (d1 + d2) / 2
    norm_num
  · show Min.min (d2 : WithTop ℚ)
        (Min.min (d1 : WithTop ℚ) ((f64Max : ℚ) : WithTop ℚ)) =
      ((Min.min d1 d2 : ℚ) : WithTop ℚ)
    rw [min_eq_left (WithTop.coe_le_coe.mpr hM1), WithTop.coe_min, min_comm]
  · show Max.max d2 (Max.max d1 0) = Max.max d1 d2
    rw [max_eq_left h01, max_comm]

/-- C5 witness: concrete instantiation with name X present and durations 1, 1, 2. -/
theorem end_benchmark_accumulator_spec_witness :
    (endBenchmarkUpdate 1 (fun _ => "") (startBenchmarkLog "X")).runs = 1 ∧
    (endBenchmarkUpdate 2 (fun _ => "")
      (endBenchmarkUpdate 1 (fun _ => "") (startBenchmarkLog "X"))).average = (1 + 2) / 2 := by
  have h := end_benchmark_accumulator_spec "X" (fun _ => "") (fun _ => "") (fun _ => "")
    { tasks := [], benchmarks := [("X", startBenchmarkLog "X")] } (startBenchmarkLog "X")
    1 1 2 (by simp [lookupKey]) (by norm_num) (by norm_num [f64Max]) (by norm_num)
    (by norm_num [f64Max]) (by norm_num) (by norm_num [f64Max])
  exact ⟨h.2.2.1.1, h.2.2.2.2.1⟩

/-- C6 counterexample: the accumulator created by `StartBenchmark::execute`
initializes `min` to the finite value `f64::MAX`, not to `+∞`. -/
theorem startBenchmark_min_is_finite :
    (startBenchmarkLog "X").min = ((f64Max : ℚ) : WithTop ℚ) ∧
    (startBenchmarkLog "X").min ≠ (⊤ : WithTop ℚ) := by
  refine ⟨rfl, ?_⟩
  show ((f64Max : ℚ) : WithTop ℚ) ≠ (⊤ : WithTop ℚ)
  exact WithTop.coe_ne_top

/-- C6 amended: for an absent name, `StartBenchmark` creates an accumulator
with `min = f64::MAX` (the largest finite `f64`, not `+∞`), `max = 0` and
`runs = 0`; since every recorded duration `d` satisfies `0 ≤ d ≤ f64::MAX`,
the first recorded sample still establishes both bounds: after one
`end_benchmark` with duration `d`, `min = d` and `max = d`. -/
theorem startBenchmark_min_max_init (X : String) (ts : TasksSubsystem)
    (fn : BenchmarkLog → String) (d : ℚ)
    (habs : lookupKey ts.benchmarks X = none) (h0 : 0 ≤ d) (hM : d ≤ f64Max) :
    (∃ ts2 : TasksSubsystem, startBenchmarkExecute X ts = .ok ts2 ∧
        lookupKey ts2.benchmarks X = some (startBenchmarkLog X)) ∧
    (startBenchmarkLog X).min = ((f64Max : ℚ) : WithTop ℚ) ∧
    (startBenchmarkLog X).max = 0 ∧
    (startBenchmarkLog X).runs = 0 ∧
    (endBenchmarkUpdate d fn (startBenchmarkLog X)).min = (d : WithTop ℚ) ∧
    (endBenchmarkUpdate d fn (startBenchmarkLog X)).max = d := by
  refine ⟨⟨_, rfl, ?_⟩, rfl, rfl, rfl, ?_, ?_⟩
  · exact lookupKey_entryOrInsert_of_none _ _ _ habs
  · show Min.min (d : WithTop ℚ) ((f64Max : ℚ) : WithTop ℚ) = (d : WithTop ℚ)
    exact min_eq_left (WithTop.coe_le_coe.mpr hM)
  · show Max.max d 0 = d
    exact max_eq_left h0

/-- C6 amended witness: concrete instantiation with an empty benchmark map
and duration 1. -/
theorem startBenchmark_min_max_init_witness :
    (startBenchmarkLog "X").min = ((f64Max : ℚ) : WithTop ℚ) ∧
    (endBenchmarkUpdate 1 (fun _ => "") (startBenchmarkLog "X")).min = ((1 : ℚ) : WithTop ℚ) :=
  have h := startBenchmark_min_max_init "X" { tasks := [], benchmarks := [] }
    (fun _ => "") 1 rfl (by norm_num) (by norm_num [f64Max])
  ⟨h.2.1, h.2.2.2.2.1⟩

/-- C8: `start_benchmark` is idempotent per name: when an accumulator for the
name already exists, executing `StartBenchmark` again returns `Ok` and leaves
the whole `TasksSubsystem` state (hence the accumulator and all of its
fields) unchanged. -/
theorem start_benchmark_idempotent (X : String) (ts : TasksSubsystem) (b : BenchmarkLog)
    (hb : lookupKey ts.benchmarks X = some b) :
    startBenchmarkExecute X ts = .ok ts := by
  show Except.ok
      { ts with benchmarks := (entryOrInsert ts.benchmarks (startBenchmarkLog X).name
          (startBenchmarkLog X)) } = Except.ok ts
  rw [show (startBenchmarkLog X).name = X from rfl,
    entryOrInsert_of_lookup_some ts.benchmarks X b (startBenchmarkLog X) hb]

/-- C8 witness: concrete instantiation on a map already holding name X. -/
theorem start_benchmark_idempotent_witness :
    startBenchmarkExecute "X"
        { tasks := [], benchmarks := [("X", endBenchmarkUpdate 1 (fun _ => "") (startBenchmarkLog "X"))] } =
      .ok { tasks := []
            benchmarks := [("X", endBenchmarkUpdate 1 (fun _ => "") (startBenchmarkLog "X"))] } :=
  start_benchmark_idempotent "X" _
    (endBenchmarkUpdate 1 (fun _ => "") (startBenchmarkLog "X")) (by simp [lookupKey])

/-- C9: an `EndTask` whose id has no `TaskLog` entry and an `EndBenchmark`
whose name has no accumulator both return `Ok` and leave the respective map
(indeed the whole state) completely unchanged: no error, no insertion. -/
theorem end_without_start_is_noop (ts : TasksSubsystem) (id name : String) (t : ℚ)
    (fnT : TaskLog → String) (fnB : BenchmarkLog → String)
    (hid : lookupKey ts.tasks id = none) (hname : lookupKey ts.benchmarks name = none) :
    end_task ts id t fnT = .ok ts ∧ end_benchmark ts name t fnB = .ok ts := by
  constructor
  · show Except.ok { ts with tasks := entryAndModify ts.tasks id (endTaskUpdate t fnT) } =
      Except.ok ts
    rw [entryAndModify_of_lookup_none ts.tasks id (endTaskUpdate t fnT) hid]
  · show Except.ok
        { ts with benchmarks := entryAndModify ts.benchmarks name (endBenchmarkUpdate t fnB) } =
      Except.ok ts
    rw [entryAndModify_of_lookup_none ts.benchmarks name (endBenchmarkUpdate t fnB) hname]

/-- C9 witness: concrete instantiation on maps not containing the id and
name being ended. -/
theorem end_without_start_is_noop_witness :
    end_task { tasks := [], benchmarks := [] } "id1" 1 (fun _ => "") =
      .ok { tasks := [], benchmarks := [] } ∧
    end_benchmark { tasks := [], benchmarks := [] } "X" 1 (fun _ => "") =
      .ok { tasks := [], benchmarks := [] } :=
  end_without_start_is_noop { tasks := [], benchmarks := [] } "id1" "X" 1
    (fun _ => "") (fun _ => "") rfl rfl

/-- C1: in every state reachable by interleaving dispatched task messages on
one subsystem, at most one `is_mut` task executes its body at any instant,
and no non-`is_mut` task executes concurrently with an `is_mut` one: the
mutable message holds the `ArcLock` exclusive write guard for the whole
`execute` call, the immutable message only the shared read guard. -/
theorem mut_task_exclusion (ps : List Proc) (s : SysState) (h : Reachable ps s) :
    mutRunning s.procs ≤ 1 ∧ (1 ≤ mutRunning s.procs → readRunning s.procs = 0) := by
  obtain ⟨h1, h2, h3⟩ := lockInv_reachable h
  cases hw : s.lock.writer with
  | false =>
    rw [hw, show (if false = true then (1 : ℕ) else 0) = 0 from rfl] at h1
    constructor
    · omega
    · intro hge
      rw [h1] at hge
      exact absurd hge (by norm_num)
  | true =>
    rw [hw, show (if true = true then (1 : ℕ) else 0) = 1 from rfl] at h1
    have h0 := h3 hw
    constructor
    · omega
    · intro _
      rw [h2, h0]

/-- C1 witness: the initial state of two queued tasks (one mutable, one
immutable) is reachable and satisfies the exclusion property. -/
theorem mut_task_exclusion_witness :
    mutRunning (initState [{ is_mut := true, phase := Phase.queued },
      { is_mut := false, phase := Phase.queued }]).procs ≤ 1 ∧
    (1 ≤ mutRunning (initState [{ is_mut := true, phase := Phase.queued },
        { is_mut := false, phase := Phase.queued }]).procs →
      readRunning (initState [{ is_mut := true, phase := Phase.queued },
        { is_mut := false, phase := Phase.queued }]).procs = 0) :=
  mut_task_exclusion _ _ (Reachable.init (by intro p hp; fin_cases hp <;> rfl))

/-- C2: evaluation of `subsystem_run_task` at the failing input: a
`log = true, benchmark = false` task in instrumented mode whose `StartTask`
instrumentation await fails is aborted by the `?` before
`task_message.execute` — the body never runs and nothing is delivered to the
caller's reply channel — whereas the same task with no instrumentation sink
executes and delivers its output.  This contradicts the claim that an
instrumentation send failure never affects the task's execution or result. -/
theorem subsystemRunTask_start_failure_skips_execute :
    subsystemRunTask true false
        (some ⟨AwaitResult.err, AwaitResult.ok, AwaitResult.ok⟩) (42 : ℕ) =
      ⟨false, none, Except.error "instrumentation send failed"⟩ ∧
    subsystemRunTask true false none (42 : ℕ) = ⟨true, some 42, Except.ok ()⟩ :=
  ⟨rfl, rfl⟩

/-- C3: evaluation of `BatchHandle::poll` at the failing input: a batch of
N = 2 handles where the first completes before a poll that still finds the
second pending.  That poll drains the first result into a poll-local list
and returns `Pending`, dropping the result; after the second handle
completes, the next poll resolves with only 1 result instead of N = 2. -/
theorem batchPoll_staggered_loses_results :
    batchPoll [OneshotState.sent (0 : ℕ), OneshotState.waiting] =
      (Poll.pending, [OneshotState.waiting]) ∧
    batchPoll [OneshotState.sent (1 : ℕ)] =
      (Poll.ready [Except.ok 1], ([] : List (OneshotState ℕ))) ∧
    ([Except.ok (1 : ℕ)] : List (Except String ℕ)).length = 1 :=
  ⟨rfl, rfl, rfl⟩

/-- C4: awaiting a `TaskHandle` resolves to exactly the value sent through
the one-shot reply channel, or to the cancellation error when the sender was
dropped without sending; it is pending exactly while the sender is alive and
silent — so it never yields a default value and never stays pending after
the sender is dropped. -/
theorem taskHandle_resolution (α : Type) (s : OneshotState α) :
    (∀ a : α, s = OneshotState.sent a → taskHandlePoll s = Poll.ready (Except.ok a)) ∧
    (s = OneshotState.closed →
      taskHandlePoll s =
        Poll.ready (Except.error ("Error retrieving task result: " ++ "channel closed"))) ∧
    (taskHandlePoll s = Poll.pending ↔ s = OneshotState.waiting) := by
  cases s <;> simp [taskHandlePoll, oneshotRecvPoll]

/-- C4 witness: concrete resolutions for a sent value and a dropped sender. -/
theorem taskHandle_resolution_witness :
    taskHandlePoll (OneshotState.sent (7 : ℕ)) = Poll.ready (Except.ok 7) ∧
    taskHandlePoll (OneshotState.closed : OneshotState ℕ) =
      Poll.ready (Except.error ("Error retrieving task result: " ++ "channel closed")) :=
  ⟨(taskHandle_resolution ℕ (OneshotState.sent 7)).1 7 rfl,
    (taskHandle_resolution ℕ OneshotState.closed).2.1 rfl⟩

/-- C7 counterexample: `Channels::get` on an empty registry panics (an
unconditional abort) instead of returning a typed error value. -/
theorem channelsGet_unregistered_panics :
    channelsGet [] 0 = GetResult.panicked "Get: No subsystem of this type was registered!" :=
  rfl

/-- C7 amended: `Channels::get` for a never-registered type fails
deterministically by panicking — it never returns a dangling or default
reference — and for a registered type it returns (a clone of) exactly the
registered `SubsystemRef`. -/
theorem channelsGet_spec (c : List (ℕ × SubsystemRefM)) (tid : ℕ) (r : SubsystemRefM) :
    (lookupKey c tid = none →
      channelsGet c tid = GetResult.panicked "Get: No subsystem of this type was registered!") ∧
    (lookupKey c tid = some r → channelsGet c tid = GetResult.ok r) ∧
    channelsGet (channelsAdd c tid r) tid = GetResult.ok r := by
  refine ⟨?_, ?_, ?_⟩
  · intro h
    simp [channelsGet, h]
  · intro h
    simp [channelsGet, h]
  · simp [channelsGet, channelsAdd, lookupKey]

/-- C7 amended witness: a registry holding one reference under type id 1
resolves id 1 to that reference and panics on the unregistered id 0. -/
theorem channelsGet_spec_witness :
    channelsGet (channelsAdd [] 1 { senderId := 5 }) 1 = GetResult.ok { senderId := 5 } ∧
    channelsGet [(1, ({ senderId := 5 } : SubsystemRefM))] 0 =
      GetResult.panicked "Get: No subsystem of this type was registered!" :=
  ⟨(channelsGet_spec [] 1 { senderId := 5 }).2.2,
    (channelsGet_spec [(1, { senderId := 5 })] 0 { senderId := 5 }).1 rfl⟩

/-- C10: a `BatchHandle` built from an empty vector of handles resolves on
its first poll with an empty result list instead of pending forever. -/
theorem batchPoll_empty_resolves (α : Type) :
    batchPoll ([] : List (OneshotState α)) = (Poll.ready [], []) :=
  rfl

end TitanV
